import Mathlib

/-!
Shallow embedding of the `MultiExchangeArbEngine` Solidity contract
(`src/unnamed/part_001`).  Addresses and token identifiers are modelled as
naturals, `uint256` amounts as `Nat` (amounts in the claims are far below
`2^256`, and every subtraction in the contract is guarded by a `require`),
Solidity `mapping`/arrays as association lists, and a reverting call as an
`Except` error: the transactional wrappers (`tx`) make the EVM rollback
explicit — an errored call leaves the caller-observable contract state
exactly as it was.  The Aave pool and the Uniswap-style routers are external
collaborators; their behaviour enters through an `Env` oracle
(`swapOut`, `premiumOf`) and the delivered/collected flash-loan funds are
credited/debited around the `executeOperation` callback exactly as
`flashLoanSimple` does.  `keccak256(abi.encode(path, indexes))` is modelled
as the encoded content itself (the pair), keeping its two load-bearing
properties: determinism and (idealized) injectivity.
-/

namespace ArbEngine

abbrev Address := Nat

/-- `struct ExchangeRouter { address routerAddress; string name; bool active; }` -/
structure ExchangeRouter where
  routerAddress : Address
  name : String
  active : Bool
deriving Repr, DecidableEq

/-- `struct ArbitragePath { address[] path; uint8[] exchangeIndexes; bool active; }` -/
structure ArbitragePath where
  path : List Address
  exchangeIndexes : List Nat
  active : Bool
deriving Repr, DecidableEq

/-- The zero value a Solidity mapping returns for an absent key. -/
def ArbitragePath.empty : ArbitragePath := ⟨[], [], false⟩

/-- `bytes32 pathKey = keccak256(abi.encode(_path, _exchangeIndexes))`:
modelled as the encoded content itself (deterministic, injective). -/
abbrev PathKey := List Address × List Nat

def pathKeyOf (tokens : List Address) (hops : List Nat) : PathKey := (tokens, hops)

/-- Overwrite-or-insert on an association list (a Solidity mapping write). -/
def setAssoc {α β : Type} [DecidableEq α] : List (α × β) → α → β → List (α × β)
  | [], k, v => [(k, v)]
  | (k', v') :: rest, k, v =>
      if k' = k then (k, v) :: rest else (k', v') :: setAssoc rest k v

/-- Read of an association list (a Solidity mapping read; `none` = absent). -/
def lookupA {α β : Type} [DecidableEq α] : List (α × β) → α → Option β
  | [], _ => none
  | (k', v) :: rest, k => if k' = k then some v else lookupA rest k

/-- Durable contract state: owner (`Ownable`), the Aave pool address, the
append-only `exchangeRouters` array, the `arbitragePaths` mapping with its
ordered `pathKeys` list, ERC20 balances (keyed by holder and token; the
engine's custody is the entries with holder = its own address), and the
`ReentrancyGuard` status flag. -/
structure EngineState where
  owner : Address
  aavePool : Address
  exchangeRouters : List ExchangeRouter
  arbitragePaths : List (PathKey × ArbitragePath)
  pathKeys : List PathKey
  balances : List ((Address × Address) × Nat)
  locked : Bool
deriving Repr, DecidableEq

/-- Read of the `arbitragePaths` mapping (zero value when absent). -/
def lookupPath (s : EngineState) (k : PathKey) : ArbitragePath :=
  match lookupA s.arbitragePaths k with
  | some p => p
  | none => ArbitragePath.empty

/-- `IERC20(token).balanceOf(holder)` for the tokens this model tracks. -/
def balanceOf (s : EngineState) (holder token : Address) : Nat :=
  match lookupA s.balances (holder, token) with
  | some n => n
  | none => 0

def setBalance (s : EngineState) (holder token : Address) (amt : Nat) : EngineState :=
  { s with balances := setAssoc s.balances (holder, token) amt }

/-- An ERC20 credit of `amt` of `token` to `holder`. -/
def credit (s : EngineState) (holder token : Address) (amt : Nat) : EngineState :=
  setBalance s holder token (balanceOf s holder token + amt)

/-- An ERC20 debit of `amt` of `token` from `holder`. -/
def debit (s : EngineState) (holder token : Address) (amt : Nat) : EngineState :=
  setBalance s holder token (balanceOf s holder token - amt)

/-- The distinct revert reasons of the contract (and of its OpenZeppelin
modifiers), named as the specification names them:
`NotOwner` = Ownable's unauthorized-account revert,
`CycleAlreadyActive` = ReentrancyGuard's reentrant-call revert,
`InvalidExchangeIndex` = "Invalid exchange index",
`ExchangeNotActive` = "Exchange not active",
`PathTooShort` = "Path must have at least 2 tokens",
`HopCountMismatch` = "Exchange indexes must match path transitions",
`PathDoesNotExist` = "Path does not exist",
`PathNotActive` = "Path not active",
`UnauthorizedCallback` = "Caller must be Aave pool",
`ForeignInitiator` = "Initiator must be this contract",
`InsufficientProfit` = "Arbitrage did not yield profit",
`NothingToWithdraw` = "No balance to withdraw",
`IndexOutOfBounds` = a Solidity array-bounds panic. -/
inductive EngineError where
  | NotOwner
  | CycleAlreadyActive
  | InvalidExchangeIndex
  | ExchangeNotActive
  | PathTooShort
  | HopCountMismatch
  | PathDoesNotExist
  | PathNotActive
  | UnauthorizedCallback
  | ForeignInitiator
  | InsufficientProfit
  | NothingToWithdraw
  | IndexOutOfBounds
deriving Repr, DecidableEq

/-- External collaborators and block context: `self` is `address(this)`,
`swapOut router fromToken toToken amountIn` is the output amount a venue's
`swapExactTokensForTokens` delivers, `premiumOf amount` is the flash-loan
premium the Aave pool states for a loan of `amount`, and `timestamp` is
`block.timestamp`. -/
structure Env where
  self : Address
  swapOut : Address → Address → Address → Nat → Nat
  premiumOf : Nat → Nat
  timestamp : Nat

/-- EVM transaction semantics for an external call: a revert rolls every
mutation back, so the observable post-state of a failed call is the
pre-state; a successful call commits the new state. -/
def tx {α : Type} (s : EngineState) (r : Except EngineError (EngineState × α)) :
    EngineState × Except EngineError α :=
  match r with
  | .error e => (s, .error e)
  | .ok (s2, a) => (s2, .ok a)

/-- `addExchange(_routerAddress, _name)`: owner-only append of an active
descriptor; returns the emitted `ExchangeAdded` index. -/
def addExchange (s : EngineState) (caller routerAddress : Address) (name : String) :
    Except EngineError (EngineState × Nat) :=
  if caller ≠ s.owner then .error .NotOwner
  else
    .ok ({ s with exchangeRouters := s.exchangeRouters ++ [⟨routerAddress, name, true⟩] },
         s.exchangeRouters.length)

/-- `updateExchange(_index, _routerAddress, _name, _active)`: owner-only;
requires `_index < exchangeRouters.length`; overwrites all three fields. -/
def updateExchange (s : EngineState) (caller : Address) (index : Nat)
    (routerAddress : Address) (name : String) (active : Bool) :
    Except EngineError (EngineState × Unit) :=
  if caller ≠ s.owner then .error .NotOwner
  else if index < s.exchangeRouters.length then
    .ok ({ s with exchangeRouters :=
            s.exchangeRouters.set index ⟨routerAddress, name, active⟩ }, ())
  else .error .InvalidExchangeIndex

/-- The validation loop of `addArbitragePath`: for each hop index in order,
`require(_exchangeIndexes[i] < exchangeRouters.length)` then
`require(exchangeRouters[_exchangeIndexes[i]].active)`. -/
def checkHops (routers : List ExchangeRouter) : List Nat → Except EngineError Unit
  | [] => .ok ()
  | i :: rest =>
      match routers[i]? with
      | none => .error .InvalidExchangeIndex
      | some r => if r.active then checkHops routers rest else .error .ExchangeNotActive

/-- `addArbitragePath(_path, _exchangeIndexes)`: owner-only; validates the
shape and every hop, then stores the record under its content key and pushes
the key onto `pathKeys` unconditionally (source line 122).  Returns the
key carried by the `ArbitragePathAdded` event. -/
def addArbitragePath (s : EngineState) (caller : Address)
    (tokens : List Address) (hops : List Nat) :
    Except EngineError (EngineState × PathKey) :=
  if caller ≠ s.owner then .error .NotOwner
  else if tokens.length < 2 then .error .PathTooShort
  else if tokens.length - 1 ≠ hops.length then .error .HopCountMismatch
  else
    match checkHops s.exchangeRouters hops with
    | .error e => .error e
    | .ok _ =>
        let pathKey := pathKeyOf tokens hops
        .ok ({ s with
                arbitragePaths := setAssoc s.arbitragePaths pathKey ⟨tokens, hops, true⟩,
                pathKeys := s.pathKeys ++ [pathKey] },
             pathKey)

/-- `updateArbitragePath(_pathKey, _active)`: owner-only; requires the path
to exist (`path.length > 0` as existence proxy); flips the active flag. -/
def updateArbitragePath (s : EngineState) (caller : Address) (k : PathKey) (active : Bool) :
    Except EngineError (EngineState × Unit) :=
  if caller ≠ s.owner then .error .NotOwner
  else if (lookupPath s k).path.length = 0 then .error .PathDoesNotExist
  else
    .ok ({ s with arbitragePaths :=
            setAssoc s.arbitragePaths k { lookupPath s k with active := active } }, ())

/-- `getExchangeCount()`. -/
def getExchangeCount (s : EngineState) : Nat := s.exchangeRouters.length

/-- `getArbitragePathCount()`. -/
def getArbitragePathCount (s : EngineState) : Nat := s.pathKeys.length

/-- `getArbitragePath(_pathKey)`: returns the stored record (the zero record
when absent). -/
def getArbitragePath (s : EngineState) (k : PathKey) : List Address × List Nat × Bool :=
  ((lookupPath s k).path, (lookupPath s k).exchangeIndexes, (lookupPath s k).active)

/-- One `router.swapExactTokensForTokens(amountIn, amountOutMin, swapPath,
recipient, deadline)` call as issued by the engine. -/
structure SwapCall where
  router : Address
  amountIn : Nat
  amountOutMin : Nat
  swapPath : List Address
  recipient : Address
  deadline : Nat
deriving Repr, DecidableEq

/-- One iteration of the swap loop in `executeOperation`: resolve the router
from `exchangeRouters[exchangeIndex]`, swap the engine's entire current
balance of `fromToken` (the two `safeApprove` calls set an allowance the
router consumes in full and are otherwise untracked), with
`amountOutMin = 0` and deadline `block.timestamp + 300`.  The router takes
the input amount from the engine and delivers `Env.swapOut` of the output
token. -/
def swapStep (env : Env) (s : EngineState) (fromToken toToken : Address)
    (exchangeIndex : Nat) : Except EngineError (EngineState × SwapCall) :=
  match s.exchangeRouters[exchangeIndex]? with
  | none => .error .IndexOutOfBounds
  | some r =>
      let amountToSwap := balanceOf s env.self fromToken
      let amountOut := env.swapOut r.routerAddress fromToken toToken amountToSwap
      let s1 := credit (debit s env.self fromToken amountToSwap) env.self toToken amountOut
      .ok (s1, ⟨r.routerAddress, amountToSwap, 0, [fromToken, toToken], env.self,
                env.timestamp + 300⟩)

/-- The swap loop of `executeOperation`: for `i` in order, swap
`path.path[i]` to `path.path[i + 1]` via `path.exchangeIndexes[i]`.  The
structural recursion walks both lists in step; a hop left over without two
remaining tokens is the Solidity array-bounds panic on `path.path[i + 1]`. -/
def runSwapChain (env : Env) :
    EngineState → List Address → List Nat →
    Except EngineError (EngineState × List SwapCall)
  | s, _, [] => .ok (s, [])
  | s, fromToken :: toToken :: restTokens, h :: restHops =>
      match swapStep env s fromToken toToken h with
      | .error e => .error e
      | .ok (s1, call) =>
          match runSwapChain env s1 (toToken :: restTokens) restHops with
          | .error e => .error e
          | .ok (s2, calls) => .ok (s2, call :: calls)
  | _, _, _ :: _ => .error .IndexOutOfBounds

/-- `executeOperation(asset, amount, premium, initiator, params)`: the flash
loan callback.  Requires `msg.sender == address(aavePool)` and
`initiator == address(this)`; decodes the path key from `params`; snapshots
`initialBalance` (source line 185 — bound and never read again); runs the
swap chain; requires the engine's entire current balance of `asset` to
cover `amount + premium`; approves the pool for exactly the debt
(allowances untracked) and returns the trace and the `ArbitrageExecuted`
profit. -/
def executeOperation (env : Env) (s : EngineState) (caller asset : Address)
    (amount premium : Nat) (initiator : Address) (pathKey : PathKey) :
    Except EngineError (EngineState × (List SwapCall × Nat)) :=
  if caller ≠ s.aavePool then .error .UnauthorizedCallback
  else if initiator ≠ env.self then .error .ForeignInitiator
  else
    let path := lookupPath s pathKey
    let _initialBalance := balanceOf s env.self asset
    match runSwapChain env s path.path path.exchangeIndexes with
    | .error e => .error e
    | .ok (s1, calls) =>
        let totalDebt := amount + premium
        let finalBalance := balanceOf s1 env.self asset
        if finalBalance < totalDebt then .error .InsufficientProfit
        else .ok (s1, (calls, finalBalance - totalDebt))

/-- Events observable from a committed arbitrage cycle: the issued swap
calls, the `ArbitrageExecuted` profit, and the `FlashLoanExecuted` pair. -/
structure CycleEvents where
  swaps : List SwapCall
  profit : Nat
  loanAsset : Address
  loanAmount : Nat
deriving Repr, DecidableEq

/-- `startArbitrage(_pathKey, _amount)`: owner-only and `nonReentrant`
(the guard flag is raised before the body runs and cleared on return);
requires the path to exist and be active; then
`aavePool.flashLoanSimple(address(this), path.path[0], _amount, params, 0)`:
the pool transfers the loan to the engine, invokes `executeOperation` with
itself as `msg.sender` and the engine as `initiator`, and afterwards
collects `amount + premium` back; finally `FlashLoanExecuted` is emitted. -/
def startArbitrage (env : Env) (s : EngineState) (caller : Address)
    (pathKey : PathKey) (amount : Nat) :
    Except EngineError (EngineState × CycleEvents) :=
  if caller ≠ s.owner then .error .NotOwner
  else if s.locked then .error .CycleAlreadyActive
  else
    let sG : EngineState := { s with locked := true }
    let path := lookupPath sG pathKey
    if path.path.length = 0 then .error .PathDoesNotExist
    else if path.active = false then .error .PathNotActive
    else
      match path.path.head? with
      | none => .error .IndexOutOfBounds
      | some asset =>
          let premium := env.premiumOf amount
          let s1 := credit sG env.self asset amount
          match executeOperation env s1 sG.aavePool asset amount premium env.self pathKey with
          | .error e => .error e
          | .ok (s2, (calls, profit)) =>
              let s3 := debit s2 env.self asset (amount + premium)
              .ok ({ s3 with locked := false }, ⟨calls, profit, asset, amount⟩)

/-- `withdraw(_token)`: owner-only and `nonReentrant`; requires a positive
balance; `safeTransfer`s the full balance to the owner and emits
`FundsWithdrawn(token, balance)` (the returned amount). -/
def withdraw (env : Env) (s : EngineState) (caller token : Address) :
    Except EngineError (EngineState × Nat) :=
  if caller ≠ s.owner then .error .NotOwner
  else if s.locked then .error .CycleAlreadyActive
  else
    let balance := balanceOf s env.self token
    if balance = 0 then .error .NothingToWithdraw
    else
      let s1 := credit (debit s env.self token balance) s.owner token balance
      .ok (s1, balance)

/-- The caller-observable effect of an external `startArbitrage` call
(revert rolls everything back). -/
def txStartArbitrage (env : Env) (s : EngineState) (caller : Address)
    (pathKey : PathKey) (amount : Nat) :
    EngineState × Except EngineError CycleEvents :=
  tx s (startArbitrage env s caller pathKey amount)

/-- The caller-observable effect of an external `executeOperation` call. -/
def txExecuteOperation (env : Env) (s : EngineState) (caller asset : Address)
    (amount premium : Nat) (initiator : Address) (pathKey : PathKey) :
    EngineState × Except EngineError (List SwapCall × Nat) :=
  tx s (executeOperation env s caller asset amount premium initiator pathKey)

/-- The caller-observable effect of an external `addArbitragePath` call. -/
def txAddArbitragePath (s : EngineState) (caller : Address)
    (tokens : List Address) (hops : List Nat) :
    EngineState × Except EngineError PathKey :=
  tx s (addArbitragePath s caller tokens hops)

/-- The caller-observable effect of an external `withdraw` call. -/
def txWithdraw (env : Env) (s : EngineState) (caller token : Address) :
    EngineState × Except EngineError Nat :=
  tx s (withdraw env s caller token)

/-! ### Concrete fixtures

A minimal deployment used to evaluate the theorems on concrete inputs:
the engine lives at address `1`, its owner at `5`, the Aave pool at `7`,
one Uniswap-style router at `100`; tokens are `10`, `11`, `12`; the
registered path is the circular route `10 → 11 → 10` over the single
exchange.  `envGain` venues pay out `amountIn + 25` per hop (so a loan of
`1000` settles at `1050`); `envLoss` venues return the input on the first
leg and `amountIn - 400` on the way back. -/

def uniRouter : ExchangeRouter := ⟨100, "UniswapV2", true⟩

def baseState : EngineState :=
  { owner := 5, aavePool := 7, exchangeRouters := [uniRouter],
    arbitragePaths := [], pathKeys := [], balances := [], locked := false }

def pathABA : PathKey := ([10, 11, 10], [0, 0])

def stReg : EngineState :=
  { baseState with
      arbitragePaths := [(pathABA, ⟨[10, 11, 10], [0, 0], true⟩)],
      pathKeys := [pathABA] }

def envGain : Env :=
  { self := 1, swapOut := fun _ _ _ x => x + 25,
    premiumOf := fun _ => 1, timestamp := 1000 }

def envLoss : Env :=
  { self := 1, swapOut := fun _ fromT _ x => if fromT = 10 then x else x - 400,
    premiumOf := fun _ => 1, timestamp := 1000 }

/-- The engine mid-cycle, holding exactly the delivered loan of `1000`. -/
def stLoanOnly : EngineState := { stReg with balances := [((1, 10), 1000)] }

/-- The engine mid-cycle with the loan plus `500` of pre-existing custody. -/
def stPre500 : EngineState := { stReg with balances := [((1, 10), 1500)] }

/-- An idle engine holding `250` of token `10`. -/
def stBal : EngineState := { baseState with balances := [((1, 10), 250)] }

/-- An engine with a cycle in flight (the reentrancy flag raised). -/
def stLocked : EngineState := { stReg with locked := true }

/-- Post-swap-chain state of the losing cycle (`1000 → 1000 → 600`). -/
def sMidLoss : EngineState :=
  { stReg with balances := [((1, 10), 600), ((1, 11), 0)], locked := true }

def callsLoss : List SwapCall :=
  [⟨100, 1000, 0, [10, 11], 1, 1300⟩, ⟨100, 1000, 0, [11, 10], 1, 1300⟩]

/-- Committed state of the winning cycle: the engine retains the profit. -/
def sPostGain : EngineState :=
  { stReg with balances := [((1, 10), 49), ((1, 11), 0)] }

def evGain : CycleEvents :=
  ⟨[⟨100, 1000, 0, [10, 11], 1, 1300⟩, ⟨100, 1025, 0, [11, 10], 1, 1300⟩],
   49, 10, 1000⟩

/-- Post-swap-chain state of the winning cycle (`1000 → 1025 → 1050`). -/
def sMidGain : EngineState :=
  { stReg with balances := [((1, 10), 1050), ((1, 11), 0)] }

def callsGain : List SwapCall :=
  [⟨100, 1000, 0, [10, 11], 1, 1300⟩, ⟨100, 1025, 0, [11, 10], 1, 1300⟩]

/-- Post-swap-chain state of the pre-custody cycle (`1500 → 1500 → 1100`). -/
def sMidPre : EngineState :=
  { stReg with balances := [((1, 10), 1100), ((1, 11), 0)] }

def callsPre : List SwapCall :=
  [⟨100, 1500, 0, [10, 11], 1, 1300⟩, ⟨100, 1500, 0, [11, 10], 1, 1300⟩]

/-- State after registering the two-token path `10 → 11` once. -/
def cexS1 : EngineState :=
  { baseState with
      arbitragePaths := [((([10, 11], [0]) : PathKey), ⟨[10, 11], [0], true⟩)],
      pathKeys := [([10, 11], [0])] }

/-- State after registering the identical path a second time: the record is
overwritten in place but the key is pushed onto `pathKeys` again. -/
def cexS2 : EngineState :=
  { cexS1 with pathKeys := [([10, 11], [0]), ([10, 11], [0])] }

/-- State after deactivating the single registered exchange. -/
def updExchS : EngineState :=
  { baseState with exchangeRouters := [⟨100, "UniswapV2", false⟩] }

/-- State after sweeping the `250` of token `10` to the owner. -/
def wdS : EngineState :=
  { baseState with balances := [((1, 10), 0), ((5, 10), 250)] }

/-! ### Helper lemmas -/

theorem lookupA_setAssoc {α β : Type} [DecidableEq α]
    (l : List (α × β)) (k : α) (v : β) (k' : α) :
    lookupA (setAssoc l k v) k' = if k' = k then some v else lookupA l k' := by
  induction l with
  | nil =>
      by_cases h : k' = k
      · subst h; simp [setAssoc, lookupA]
      · simp [setAssoc, lookupA, h, Ne.symm h]
  | cons hd tl ih =>
      obtain ⟨a, b⟩ := hd
      by_cases hak : a = k
      · subst hak
        by_cases h : k' = a
        · subst h; simp [setAssoc, lookupA]
        · simp [setAssoc, lookupA, h, Ne.symm h]
      · by_cases h1 : a = k'
        · subst h1
          simp [setAssoc, lookupA, hak]
        · simp [setAssoc, lookupA, hak, h1, ih]

theorem balanceOf_setBalance (s : EngineState) (h t : Address) (a : Nat)
    (h' t' : Address) :
    balanceOf (setBalance s h t a) h' t' =
      if (h', t') = (h, t) then a else balanceOf s h' t' := by
  unfold balanceOf setBalance
  simp only [lookupA_setAssoc]
  by_cases hk : ((h', t') : Address × Address) = (h, t) <;> simp [hk]

theorem balanceOf_credit (s : EngineState) (h t : Address) (a : Nat) (h' t' : Address) :
    balanceOf (credit s h t a) h' t' =
      if (h', t') = (h, t) then balanceOf s h t + a else balanceOf s h' t' := by
  unfold credit
  rw [balanceOf_setBalance]

theorem balanceOf_debit (s : EngineState) (h t : Address) (a : Nat) (h' t' : Address) :
    balanceOf (debit s h t a) h' t' =
      if (h', t') = (h, t) then balanceOf s h t - a else balanceOf s h' t' := by
  unfold debit
  rw [balanceOf_setBalance]

@[simp] theorem credit_owner (s : EngineState) (h t : Address) (a : Nat) :
    (credit s h t a).owner = s.owner := rfl

@[simp] theorem credit_aavePool (s : EngineState) (h t : Address) (a : Nat) :
    (credit s h t a).aavePool = s.aavePool := rfl

@[simp] theorem credit_exchangeRouters (s : EngineState) (h t : Address) (a : Nat) :
    (credit s h t a).exchangeRouters = s.exchangeRouters := rfl

@[simp] theorem credit_arbitragePaths (s : EngineState) (h t : Address) (a : Nat) :
    (credit s h t a).arbitragePaths = s.arbitragePaths := rfl

@[simp] theorem credit_pathKeys (s : EngineState) (h t : Address) (a : Nat) :
    (credit s h t a).pathKeys = s.pathKeys := rfl

@[simp] theorem credit_locked (s : EngineState) (h t : Address) (a : Nat) :
    (credit s h t a).locked = s.locked := rfl

@[simp] theorem debit_owner (s : EngineState) (h t : Address) (a : Nat) :
    (debit s h t a).owner = s.owner := rfl

@[simp] theorem debit_aavePool (s : EngineState) (h t : Address) (a : Nat) :
    (debit s h t a).aavePool = s.aavePool := rfl

@[simp] theorem debit_exchangeRouters (s : EngineState) (h t : Address) (a : Nat) :
    (debit s h t a).exchangeRouters = s.exchangeRouters := rfl

@[simp] theorem debit_arbitragePaths (s : EngineState) (h t : Address) (a : Nat) :
    (debit s h t a).arbitragePaths = s.arbitragePaths := rfl

@[simp] theorem debit_pathKeys (s : EngineState) (h t : Address) (a : Nat) :
    (debit s h t a).pathKeys = s.pathKeys := rfl

@[simp] theorem debit_locked (s : EngineState) (h t : Address) (a : Nat) :
    (debit s h t a).locked = s.locked := rfl

@[simp] theorem lookupPath_credit (s : EngineState) (h t : Address) (a : Nat) (k : PathKey) :
    lookupPath (credit s h t a) k = lookupPath s k := rfl

@[simp] theorem lookupPath_debit (s : EngineState) (h t : Address) (a : Nat) (k : PathKey) :
    lookupPath (debit s h t a) k = lookupPath s k := rfl

@[simp] theorem lookupPath_setLocked (s : EngineState) (b : Bool) (k : PathKey) :
    lookupPath { s with locked := b } k = lookupPath s k := rfl

@[simp] theorem balanceOf_setLocked (s : EngineState) (b : Bool) (h t : Address) :
    balanceOf { s with locked := b } h t = balanceOf s h t := rfl

/-- Inversion of a successful `executeOperation` call: the identity checks
passed, the swap chain ran to completion, the engine's entire final balance
of the borrowed asset covers the debt, and the reported profit is that
entire final balance minus the debt. -/
theorem executeOperation_ok_inv (env : Env) (s : EngineState) (caller asset : Address)
    (amount premium : Nat) (initiator : Address) (pathKey : PathKey)
    (sMid : EngineState) (calls : List SwapCall) (profit : Nat)
    (h : executeOperation env s caller asset amount premium initiator pathKey
           = .ok (sMid, (calls, profit))) :
    caller = s.aavePool ∧ initiator = env.self ∧
    runSwapChain env s (lookupPath s pathKey).path (lookupPath s pathKey).exchangeIndexes
      = .ok (sMid, calls) ∧
    amount + premium ≤ balanceOf sMid env.self asset ∧
    profit = balanceOf sMid env.self asset - (amount + premium) := by
  simp only [executeOperation] at h
  by_cases hc : caller = s.aavePool
  · rw [if_neg (not_not_intro hc)] at h
    by_cases hi : initiator = env.self
    · rw [if_neg (not_not_intro hi)] at h
      split at h
      · exact absurd h (by simp)
      · rename_i s1 calls1 heqChain
        split at h
        · exact absurd h (by simp)
        · rename_i hlt
          simp only [Except.ok.injEq, Prod.mk.injEq] at h
          obtain ⟨hs, hcalls, hp⟩ := h
          subst hs; subst hcalls; subst hp
          exact ⟨hc, hi, heqChain, Nat.not_lt.mp hlt, rfl⟩
    · rw [if_pos hi] at h
      exact absurd h (by simp)
  · rw [if_pos hc] at h
    exact absurd h (by simp)

/-! ### Claim theorems -/

/-- C4: while one arbitrage cycle is in flight (the `ReentrancyGuard` flag is
raised, which `startArbitrage` does before requesting the loan, so every
re-entrant call from within the cycle's callback observes it), any further
`startArbitrage` call on the same engine fails and commits no state — hence
no second loan request is issued and two cycles are never simultaneously in
flight; a call that passes the `onlyOwner` modifier fails precisely with the
`CycleAlreadyActive` (reentrant-call) error. -/
theorem startArbitrage_reentrancy_rejected (env : Env) (s : EngineState)
    (caller : Address) (pathKey : PathKey) (amount : Nat)
    (hInFlight : s.locked = true) :
    (∃ e, txStartArbitrage env s caller pathKey amount = (s, .error e)) ∧
    (caller = s.owner →
      txStartArbitrage env s caller pathKey amount = (s, .error .CycleAlreadyActive)) := by
  constructor
  · by_cases h : caller = s.owner
    · exact ⟨.CycleAlreadyActive, by simp [txStartArbitrage, tx, startArbitrage, h, hInFlight]⟩
    · exact ⟨.NotOwner, by simp [txStartArbitrage, tx, startArbitrage, h]⟩
  · intro h
    simp [txStartArbitrage, tx, startArbitrage, h, hInFlight]

/-- C5: `executeOperation` acts on the delivered funds only when both
identity checks pass: a call whose caller is not the registered Aave pool,
or whose stated initiator is not the engine itself, fails with
`UnauthorizedCallback` respectively `ForeignInitiator`, and the reverted
call leaves the state exactly as it was — in particular no swap is
performed. -/
theorem executeOperation_foreign_caller_rejected (env : Env) (s : EngineState)
    (caller asset : Address) (amount premium : Nat) (initiator : Address)
    (pathKey : PathKey)
    (hBad : caller ≠ s.aavePool ∨ initiator ≠ env.self) :
    ∃ e, (e = EngineError.UnauthorizedCallback ∨ e = EngineError.ForeignInitiator) ∧
      txExecuteOperation env s caller asset amount premium initiator pathKey =
        (s, .error e) := by
  by_cases hc : caller = s.aavePool
  · have hi : initiator ≠ env.self := by
      rcases hBad with h | h
      · exact absurd hc h
      · exact h
    exact ⟨.ForeignInitiator, Or.inr rfl,
           by simp [txExecuteOperation, tx, executeOperation, hc, hi]⟩
  · exact ⟨.UnauthorizedCallback, Or.inl rfl,
           by simp [txExecuteOperation, tx, executeOperation, hc]⟩

/-- C10: the debt check and the reported profit of `executeOperation` are
computed from the engine's entire current balance of the borrowed asset
after the swap chain — a balance that includes whatever custody the engine
held before the cycle — and from nothing else: given the chain's result
state, the callback succeeds precisely when that entire balance covers
`amount + premium`, with profit the entire balance minus the debt (so
pre-existing custody can cover a shortfall of the swaps and is counted in
the profit); the `initialBalance` snapshot taken at the start of the
callback influences nothing. -/
theorem executeOperation_entire_balance_accounting (env : Env) (s : EngineState)
    (caller asset : Address) (amount premium : Nat) (initiator : Address)
    (pathKey : PathKey) (sMid : EngineState) (calls : List SwapCall)
    (hc : caller = s.aavePool) (hi : initiator = env.self)
    (hChain : runSwapChain env s (lookupPath s pathKey).path
        (lookupPath s pathKey).exchangeIndexes = .ok (sMid, calls)) :
    (amount + premium ≤ balanceOf sMid env.self asset →
       executeOperation env s caller asset amount premium initiator pathKey
         = .ok (sMid, (calls, balanceOf sMid env.self asset - (amount + premium)))) ∧
    (balanceOf sMid env.self asset < amount + premium →
       executeOperation env s caller asset amount premium initiator pathKey
         = .error .InsufficientProfit) := by
  constructor
  · intro hle
    simp [executeOperation, hc, hi, hChain, Nat.not_lt.mpr hle]
  · intro hlt
    simp [executeOperation, hc, hi, hChain, hlt]

/-- C9: an owner call to `withdraw(asset)` when the engine holds `N > 0` of
the asset transfers exactly `N` to the owner (the owner's holdings grow by
`N`), leaves the engine's balance of the asset at `0`, and reports
`FundsWithdrawn(asset, N)`; when the engine's balance is `0` the call fails
with `NothingToWithdraw` and changes nothing.  No partial withdrawal exists:
the transferred amount is always the full balance.  (The owner is a party
distinct from the engine contract itself, as in any real deployment.) -/
theorem withdraw_full_sweep (env : Env) (s : EngineState) (caller token : Address)
    (hOwner : caller = s.owner) (hFree : s.locked = false)
    (hSep : s.owner ≠ env.self) :
    (balanceOf s env.self token = 0 →
      txWithdraw env s caller token = (s, .error .NothingToWithdraw)) ∧
    (∀ N, balanceOf s env.self token = N → 0 < N →
      ∃ s2, txWithdraw env s caller token = (s2, .ok N) ∧
        balanceOf s2 env.self token = 0 ∧
        balanceOf s2 s.owner token = balanceOf s s.owner token + N ∧
        s2.arbitragePaths = s.arbitragePaths ∧
        s2.pathKeys = s.pathKeys ∧
        s2.exchangeRouters = s.exchangeRouters) := by
  constructor
  · intro h0
    simp [txWithdraw, tx, withdraw, hOwner, hFree, h0]
  · intro N hN hpos
    subst hN
    refine ⟨credit (debit s env.self token (balanceOf s env.self token)) s.owner token
              (balanceOf s env.self token), ?_, ?_, ?_, rfl, rfl, rfl⟩
    · simp [txWithdraw, tx, withdraw, hOwner, hFree, Nat.pos_iff_ne_zero.mp hpos]
    · rw [balanceOf_credit]
      have hk : ((env.self, token) : Address × Address) ≠ (s.owner, token) := by
        intro hh
        exact hSep (congrArg Prod.fst hh).symm
      rw [if_neg hk, balanceOf_debit, if_pos rfl, Nat.sub_self]
    · rw [balanceOf_credit, if_pos rfl, balanceOf_debit]
      have hk : ((s.owner, token) : Address × Address) ≠ (env.self, token) := by
        intro hh
        exact hSep (congrArg Prod.fst hh)
      rw [if_neg hk]

/-- Every hop index accepted by the validation loop of `addArbitragePath`
references an existing, currently-active exchange. -/
theorem checkHops_ok_mem (routers : List ExchangeRouter) (hops : List Nat)
    (h : checkHops routers hops = .ok ()) :
    ∀ i ∈ hops, ∃ r, routers[i]? = some r ∧ r.active = true := by
  induction hops with
  | nil => intro i hi; exact absurd hi (List.not_mem_nil i)
  | cons j rest ih =>
      intro i hi
      simp only [checkHops] at h
      rcases hr : routers[j]? with _ | r
      · rw [hr] at h
        exact absurd h (by simp)
      · rw [hr] at h
        dsimp only at h
        by_cases ha : r.active
        · rw [if_pos ha] at h
          rcases List.mem_cons.mp hi with hij | hirest
          · exact hij ▸ ⟨r, hr, ha⟩
          · exact ih h i hirest
        · rw [if_neg ha] at h
          exact absurd h (by simp)

/-- The validation loop of `addArbitragePath` rejects any hop list that
mentions an index whose exchange record is inactive (or absent). -/
theorem checkHops_error_of_mem_inactive (routers : List ExchangeRouter)
    (hops : List Nat) (i : Nat) (hmem : i ∈ hops)
    (hbad : ∀ r, routers[i]? = some r → r.active = false) :
    ∃ e, checkHops routers hops = .error e := by
  induction hops with
  | nil => exact absurd hmem (List.not_mem_nil i)
  | cons j rest ih =>
      rcases hr : routers[j]? with _ | r
      · exact ⟨.InvalidExchangeIndex, by simp [checkHops, hr]⟩
      · by_cases ha : r.active
        · have hij : i ≠ j := by
            intro he
            subst he
            exact absurd (hbad r hr) (by simp [ha])
          have hirest : i ∈ rest := by
            rcases List.mem_cons.mp hmem with h1 | h2
            · exact absurd h1 hij
            · exact h2
          rcases ih hirest with ⟨e, he⟩
          exact ⟨e, by simp [checkHops, hr, ha, he]⟩
        · exact ⟨.ExchangeNotActive, by simp [checkHops, hr, ha]⟩

/-- C8: `updateExchange` — in particular a deactivation — rewrites only the
addressed exchange record: every path record, the key list and all balances
are untouched, and `getArbitragePath` answers exactly as before; yet after
deactivating index `idx`, every subsequent `addArbitragePath` call whose hop
list references `idx` fails (and, reverting, stores nothing). -/
theorem updateExchange_nonretroactive_frame (s : EngineState) (caller : Address)
    (idx : Nat) (addr : Address) (nm : String) (s2 : EngineState)
    (h : updateExchange s caller idx addr nm false = .ok (s2, ())) :
    s2.arbitragePaths = s.arbitragePaths ∧
    s2.pathKeys = s.pathKeys ∧
    s2.balances = s.balances ∧
    (∀ k, getArbitragePath s2 k = getArbitragePath s k) ∧
    s2.exchangeRouters[idx]? = some ⟨addr, nm, false⟩ ∧
    (∀ caller2 tokens hops, idx ∈ hops →
      ∃ e, addArbitragePath s2 caller2 tokens hops = .error e) := by
  simp only [updateExchange] at h
  split at h
  · exact absurd h (by simp)
  · split at h
    · rename_i hown hlt
      simp only [Except.ok.injEq, Prod.mk.injEq] at h
      obtain ⟨hs, -⟩ := h
      subst hs
      refine ⟨rfl, rfl, rfl, fun k => rfl, ?_, ?_⟩
      · exact List.getElem?_set_self hlt
      · intro caller2 tokens hops hmem
        have hbad : ∀ r, (s.exchangeRouters.set idx ⟨addr, nm, false⟩)[idx]? = some r →
            r.active = false := by
          intro r hr
          rw [List.getElem?_set_self hlt] at hr
          cases hr
          rfl
        by_cases hc2 : caller2 ≠ s.owner
        · exact ⟨.NotOwner, by simp [addArbitragePath, hc2]⟩
        · by_cases hl2 : tokens.length < 2
          · exact ⟨.PathTooShort, by simp [addArbitragePath, hc2, hl2]⟩
          · by_cases hmm : tokens.length - 1 ≠ hops.length
            · exact ⟨.HopCountMismatch, by simp [addArbitragePath, hc2, hl2, hmm]⟩
            · rcases checkHops_error_of_mem_inactive
                  (s.exchangeRouters.set idx ⟨addr, nm, false⟩) hops idx hmem hbad with ⟨e, he⟩
              exact ⟨e, by simp [addArbitragePath, hc2, hl2, hmm, he]⟩
    · exact absurd h (by simp)

/-- C6: an owner call to `addArbitragePath` succeeds only when the token
list has at least two entries, the hop list has exactly one entry per token
transition, and every hop index references an existing, currently-active
exchange; a reverted call stores nothing.  In particular a two-token path
with an empty hop list fails with the hop-count mismatch, and with exactly
one (active) registered exchange a path hopping through indexes `0` and
`99` fails with the invalid-exchange-reference error. -/
theorem addArbitragePath_validation (s : EngineState) (caller : Address)
    (hOwner : caller = s.owner) (tA tB tC : Address) :
    (∀ tokens hops s2 k, addArbitragePath s caller tokens hops = .ok (s2, k) →
      2 ≤ tokens.length ∧ hops.length = tokens.length - 1 ∧
      ∀ i ∈ hops, ∃ r, s.exchangeRouters[i]? = some r ∧ r.active = true) ∧
    (∀ tokens hops e, addArbitragePath s caller tokens hops = .error e →
      txAddArbitragePath s caller tokens hops = (s, .error e)) ∧
    addArbitragePath s caller [tA, tB] [] = .error .HopCountMismatch ∧
    (∀ r, s.exchangeRouters = [r] → r.active = true →
      addArbitragePath s caller [tA, tB, tC] [0, 99] = .error .InvalidExchangeIndex) := by
  refine ⟨?_, ?_, ?_, ?_⟩
  · intro tokens hops s2 k h
    simp only [addArbitragePath] at h
    rw [if_neg (not_not_intro hOwner)] at h
    by_cases hl2 : tokens.length < 2
    · rw [if_pos hl2] at h
      exact absurd h (by simp)
    · rw [if_neg hl2] at h
      by_cases hmm : tokens.length - 1 ≠ hops.length
      · rw [if_pos hmm] at h
        exact absurd h (by simp)
      · rw [if_neg hmm] at h
        refine ⟨Nat.not_lt.mp hl2, (not_not.mp hmm).symm, ?_⟩
        rcases hch : checkHops s.exchangeRouters hops with e | u
        · rw [hch] at h
          exact absurd h (by simp)
        · obtain ⟨⟩ := u
          exact checkHops_ok_mem s.exchangeRouters hops hch
  · intro tokens hops e h
    simp [txAddArbitragePath, tx, h]
  · simp [addArbitragePath, hOwner]
  · intro r hrs hra
    simp [addArbitragePath, hOwner, hrs, checkHops, hra]

/-- C3 (amended): adding the same `tokens`/`exchangeHops` twice yields the
same deterministic content key both times, the second registration succeeds,
and — because `pathKeys.push(pathKey)` runs unconditionally, with no
membership check — the path count grows by exactly one on each call, hence
by two across the pair of identical calls. -/
theorem addArbitragePath_idempotent_key_count_two (s : EngineState)
    (caller : Address) (tokens : List Address) (hops : List Nat)
    (s1 : EngineState) (k : PathKey)
    (h1 : addArbitragePath s caller tokens hops = .ok (s1, k)) :
    ∃ s2, addArbitragePath s1 caller tokens hops = .ok (s2, k) ∧
      getArbitragePathCount s1 = getArbitragePathCount s + 1 ∧
      getArbitragePathCount s2 = getArbitragePathCount s + 2 := by
  simp only [addArbitragePath] at h1
  by_cases hc : caller ≠ s.owner
  · rw [if_pos hc] at h1
    exact absurd h1 (by simp)
  · rw [if_neg hc] at h1
    by_cases hl2 : tokens.length < 2
    · rw [if_pos hl2] at h1
      exact absurd h1 (by simp)
    · rw [if_neg hl2] at h1
      by_cases hmm : tokens.length - 1 ≠ hops.length
      · rw [if_pos hmm] at h1
        exact absurd h1 (by simp)
      · rw [if_neg hmm] at h1
        rcases hch : checkHops s.exchangeRouters hops with e | u
        · rw [hch] at h1
          exact absurd h1 (by simp)
        · obtain ⟨⟩ := u
          rw [hch] at h1
          simp only [Except.ok.injEq, Prod.mk.injEq] at h1
          obtain ⟨hs1, hk⟩ := h1
          subst hk
          subst hs1
          refine ⟨{ owner := s.owner, aavePool := s.aavePool,
                    exchangeRouters := s.exchangeRouters,
                    arbitragePaths := setAssoc
                      (setAssoc s.arbitragePaths (pathKeyOf tokens hops)
                        ⟨tokens, hops, true⟩)
                      (pathKeyOf tokens hops) ⟨tokens, hops, true⟩,
                    pathKeys := s.pathKeys ++ [pathKeyOf tokens hops]
                      ++ [pathKeyOf tokens hops],
                    balances := s.balances, locked := s.locked }, ?_, ?_, ?_⟩
          · simp only [addArbitragePath, if_neg hc, if_neg hl2, if_neg hmm, hch]
          · simp [getArbitragePathCount]
          · simp [getArbitragePathCount]

/-- C1: a cycle whose swap chain leaves the engine with less of the borrowed
asset than `borrowedAmount + premium` fails with `InsufficientProfit`, and
the state observable after the failed `startArbitrage` call is exactly the
state before it — every balance, every path record and every exchange
record unchanged (the revert discards the loan, all swaps and all balance
changes; no partial state persists). -/
theorem startArbitrage_insufficientProfit_atomic (env : Env) (s : EngineState)
    (caller : Address) (pathKey : PathKey) (amount : Nat)
    (asset : Address) (sMid : EngineState) (calls : List SwapCall)
    (hOwner : caller = s.owner) (hFree : s.locked = false)
    (hExists : (lookupPath s pathKey).path.length ≠ 0)
    (hActive : (lookupPath s pathKey).active = true)
    (hHead : (lookupPath s pathKey).path.head? = some asset)
    (hChain : runSwapChain env (credit { s with locked := true } env.self asset amount)
        (lookupPath s pathKey).path (lookupPath s pathKey).exchangeIndexes
        = .ok (sMid, calls))
    (hShort : balanceOf sMid env.self asset < amount + env.premiumOf amount) :
    txStartArbitrage env s caller pathKey amount = (s, .error .InsufficientProfit) := by
  simp only [txStartArbitrage, tx, startArbitrage, executeOperation,
    lookupPath_setLocked, lookupPath_credit, credit_aavePool, credit_owner,
    if_neg (not_not_intro hOwner), hFree, Bool.false_eq_true, if_false,
    if_neg hExists, hActive, Bool.true_eq_false, hHead]
  simp only [ne_eq, not_true_eq_false, if_false, hChain, hShort, if_pos hShort]
  simp

/-- C2: for every committed cycle the engine's balance of the borrowed asset
at settlement covers `borrowedAmount + premium`, the reported profit is
exactly that settlement balance minus the debt, and after the pool collects
the debt the engine retains exactly the profit.  (The claim's concrete
instance — `amount = 1000`, `premium = 1`, chain returning `1050`, profit
`49`, post-cycle balance `0 + 49` — is the witness below.) -/
theorem startArbitrage_success_accounting (env : Env) (s : EngineState)
    (caller : Address) (pathKey : PathKey) (amount : Nat)
    (s2 : EngineState) (ev : CycleEvents)
    (h : startArbitrage env s caller pathKey amount = .ok (s2, ev)) :
    ∃ sMid : EngineState,
      executeOperation env (credit { s with locked := true } env.self ev.loanAsset amount)
          s.aavePool ev.loanAsset amount (env.premiumOf amount) env.self pathKey
        = .ok (sMid, (ev.swaps, ev.profit)) ∧
      amount + env.premiumOf amount ≤ balanceOf sMid env.self ev.loanAsset ∧
      balanceOf sMid env.self ev.loanAsset = ev.profit + (amount + env.premiumOf amount) ∧
      balanceOf s2 env.self ev.loanAsset = ev.profit := by
  simp only [startArbitrage] at h
  split at h
  · exact absurd h (by simp)
  · split at h
    · exact absurd h (by simp)
    · split at h
      · exact absurd h (by simp)
      · split at h
        · exact absurd h (by simp)
        · split at h
          · exact absurd h (by simp)
          · rename_i asset hHead
            split at h
            · exact absurd h (by simp)
            · rename_i sE callsE profitE heqExec
              simp only [Except.ok.injEq, Prod.mk.injEq] at h
              obtain ⟨hs2, hev⟩ := h
              subst hs2
              subst hev
              obtain ⟨-, -, -, hle, hprofit⟩ :=
                executeOperation_ok_inv env _ _ _ amount (env.premiumOf amount) _ pathKey
                  _ _ _ heqExec
              refine ⟨sE, heqExec, hle, ?_, ?_⟩
              · rw [hprofit, Nat.sub_add_cancel hle]
              · rw [balanceOf_setLocked, balanceOf_debit, if_pos rfl, hprofit]

/-- Inversion of a successful swap hop: the router was resolved from the
exchange record, the entire current balance of the source token was put in,
and the recorded call carries a zero output floor and the five-minute
deadline. -/
theorem swapStep_ok_inv (env : Env) (s : EngineState) (fromToken toToken : Address)
    (i : Nat) (s1 : EngineState) (c : SwapCall)
    (h : swapStep env s fromToken toToken i = .ok (s1, c)) :
    ∃ r, s.exchangeRouters[i]? = some r ∧
      s1 = credit (debit s env.self fromToken (balanceOf s env.self fromToken))
             env.self toToken
             (env.swapOut r.routerAddress fromToken toToken
               (balanceOf s env.self fromToken)) ∧
      c = ⟨r.routerAddress, balanceOf s env.self fromToken, 0, [fromToken, toToken],
           env.self, env.timestamp + 300⟩ := by
  simp only [swapStep] at h
  rcases hr : s.exchangeRouters[i]? with _ | r
  · rw [hr] at h
    exact absurd h (by simp)
  · rw [hr] at h
    dsimp only at h
    simp only [Except.ok.injEq, Prod.mk.injEq] at h
    exact ⟨r, rfl, h.1.symm, h.2.symm⟩

/-- Structure of a completed swap chain: the exchange registry is untouched,
one call is issued per hop, every call uses a zero minimum-output floor, the
engine as recipient and the `block.timestamp + 300` deadline, and the call
of hop `i` swaps the engine's entire balance of `tokens[i]` — as held after
the first `i` hops — into `tokens[i + 1]` through the router resolved from
hop `i`'s exchange record. -/
theorem runSwapChain_spec (env : Env) (hops : List Nat) :
    ∀ (toks : List Address) (s sEnd : EngineState) (calls : List SwapCall),
      runSwapChain env s toks hops = .ok (sEnd, calls) →
      sEnd.exchangeRouters = s.exchangeRouters ∧
      calls.length = hops.length ∧
      (∀ c ∈ calls, c.amountOutMin = 0 ∧ c.recipient = env.self ∧
        c.deadline = env.timestamp + 300) ∧
      (∀ i, i < hops.length →
        ∃ sPre pre hop fromTok toTok r,
          runSwapChain env s toks (hops.take i) = .ok (sPre, pre) ∧
          hops[i]? = some hop ∧
          toks[i]? = some fromTok ∧
          toks[i + 1]? = some toTok ∧
          s.exchangeRouters[hop]? = some r ∧
          calls[i]? = some ⟨r.routerAddress, balanceOf sPre env.self fromTok, 0,
                            [fromTok, toTok], env.self, env.timestamp + 300⟩) := by
  induction hops with
  | nil =>
      intro toks s sEnd calls h
      simp only [runSwapChain, Except.ok.injEq, Prod.mk.injEq] at h
      obtain ⟨hs, hc⟩ := h
      subst hs
      subst hc
      refine ⟨rfl, rfl, by simp, ?_⟩
      intro i hi
      exact absurd hi (by simp)
  | cons h0 hs ih =>
      intro toks s sEnd calls h
      cases toks with
      | nil =>
          simp only [runSwapChain] at h
          exact absurd h (by simp)
      | cons t0 rest =>
          cases rest with
          | nil =>
              simp only [runSwapChain] at h
              exact absurd h (by simp)
          | cons t1 ts =>
              simp only [runSwapChain] at h
              split at h
              · exact absurd h (by simp)
              · rename_i s1 c0 heqStep
                split at h
                · exact absurd h (by simp)
                · rename_i s2 cs heqRest
                  simp only [Except.ok.injEq, Prod.mk.injEq] at h
                  obtain ⟨hsE, hcalls⟩ := h
                  subst hsE
                  subst hcalls
                  obtain ⟨r, hr, hs1, hc0⟩ :=
                    swapStep_ok_inv env s t0 t1 h0 s1 c0 heqStep
                  obtain ⟨ihRouters, ihLen, ihAll, ihIdx⟩ :=
                    ih (t1 :: ts) s1 s2 cs heqRest
                  have hs1R : s1.exchangeRouters = s.exchangeRouters := by
                    rw [hs1]; simp
                  refine ⟨by rw [ihRouters, hs1R], by simp [ihLen], ?_, ?_⟩
                  · intro c hc
                    rcases List.mem_cons.mp hc with h1 | h2
                    · subst h1
                      rw [hc0]
                      exact ⟨rfl, rfl, rfl⟩
                    · exact ihAll c h2
                  · intro i hi
                    cases i with
                    | zero =>
                        refine ⟨s, [], h0, t0, t1, r, by simp [runSwapChain],
                                by simp, by simp, by simp, hr, ?_⟩
                        rw [hc0]
                        simp
                    | succ j =>
                        have hj : j < hs.length := by
                          simpa using hi
                        obtain ⟨sPre, pre, hop, fromTok, toTok, r2, hrun, hhop,
                                hft, htt, hr2, hcall⟩ := ihIdx j hj
                        refine ⟨sPre, c0 :: pre, hop, fromTok, toTok, r2,
                                ?_, by simpa using hhop, by simpa using hft,
                                by simpa using htt, ?_, by simpa using hcall⟩
                        · simp only [List.take_succ_cons, runSwapChain, heqStep, hrun]
                        · rw [← hs1R]
                          exact hr2

/-- C7: in every cycle whose callback commits, the swap chain walks the
registered path hop by hop: hop `i` swaps the engine's entire current
balance of `tokens[i]` (not merely the delivered loan) into `tokens[i + 1]`
through the venue resolved from `exchangeHops[i]`, always passing a
minimum-output floor of `0` and a deadline of `block.timestamp + 300`,
strictly in the future. -/
theorem executeOperation_swap_chain_shape (env : Env) (s : EngineState)
    (caller asset : Address) (amount premium : Nat) (initiator : Address)
    (pathKey : PathKey) (sMid : EngineState) (calls : List SwapCall) (profit : Nat)
    (h : executeOperation env s caller asset amount premium initiator pathKey
           = .ok (sMid, (calls, profit))) :
    calls.length = (lookupPath s pathKey).exchangeIndexes.length ∧
    (∀ c ∈ calls, c.amountOutMin = 0 ∧ c.recipient = env.self ∧
      c.deadline = env.timestamp + 300 ∧ env.timestamp < c.deadline) ∧
    (∀ i, i < (lookupPath s pathKey).exchangeIndexes.length →
      ∃ sPre pre hop fromTok toTok r,
        runSwapChain env s (lookupPath s pathKey).path
            ((lookupPath s pathKey).exchangeIndexes.take i) = .ok (sPre, pre) ∧
        (lookupPath s pathKey).exchangeIndexes[i]? = some hop ∧
        (lookupPath s pathKey).path[i]? = some fromTok ∧
        (lookupPath s pathKey).path[i + 1]? = some toTok ∧
        s.exchangeRouters[hop]? = some r ∧
        calls[i]? = some ⟨r.routerAddress, balanceOf sPre env.self fromTok, 0,
                          [fromTok, toTok], env.self, env.timestamp + 300⟩) := by
  obtain ⟨-, -, hChain, -, -⟩ :=
    executeOperation_ok_inv env s caller asset amount premium initiator pathKey
      sMid calls profit h
  obtain ⟨-, hLen, hAll, hIdx⟩ :=
    runSwapChain_spec env (lookupPath s pathKey).exchangeIndexes
      (lookupPath s pathKey).path s sMid calls hChain
  refine ⟨hLen, ?_, hIdx⟩
  intro c hc
  obtain ⟨h1, h2, h3⟩ := hAll c hc
  refine ⟨h1, h2, h3, ?_⟩
  rw [h3]
  omega

/-! ### Witnesses and the concrete counterexample -/

/-- C1 witness: with `envLoss` venues the registered `10 → 11 → 10` cycle
settles at `600 < 1001`; the call fails with `InsufficientProfit` and the
observable state is exactly `stReg` again. -/
theorem startArbitrage_insufficientProfit_atomic_witness :
    (5 : Address) = stReg.owner ∧ stReg.locked = false ∧
    (lookupPath stReg pathABA).path.length ≠ 0 ∧
    (lookupPath stReg pathABA).active = true ∧
    (lookupPath stReg pathABA).path.head? = some 10 ∧
    runSwapChain envLoss (credit { stReg with locked := true } envLoss.self 10 1000)
        (lookupPath stReg pathABA).path (lookupPath stReg pathABA).exchangeIndexes
      = .ok (sMidLoss, callsLoss) ∧
    balanceOf sMidLoss envLoss.self 10 < 1000 + envLoss.premiumOf 1000 ∧
    txStartArbitrage envLoss stReg 5 pathABA 1000 = (stReg, .error .InsufficientProfit) :=
  ⟨rfl, rfl, by decide, rfl, rfl, rfl, by decide,
   startArbitrage_insufficientProfit_atomic envLoss stReg 5 pathABA 1000 10
     sMidLoss callsLoss rfl rfl (by decide) rfl rfl rfl (by decide)⟩

/-- C2 witness: the claim's concrete instance — `amount = 1000`,
`premium = 1`, chain returning `1050` — reports profit `49` and leaves the
engine's balance of the borrowed asset at `0 + 49`. -/
theorem startArbitrage_success_accounting_witness :
    startArbitrage envGain stReg 5 pathABA 1000 = .ok (sPostGain, evGain) ∧
    balanceOf stReg envGain.self 10 = 0 ∧
    evGain.profit = 49 ∧
    balanceOf sPostGain envGain.self 10 = 0 + 49 ∧
    (∃ sMid : EngineState,
      executeOperation envGain
          (credit { stReg with locked := true } envGain.self evGain.loanAsset 1000)
          stReg.aavePool evGain.loanAsset 1000 (envGain.premiumOf 1000) envGain.self
          pathABA
        = .ok (sMid, (evGain.swaps, evGain.profit)) ∧
      1000 + envGain.premiumOf 1000 ≤ balanceOf sMid envGain.self evGain.loanAsset ∧
      balanceOf sMid envGain.self evGain.loanAsset
        = evGain.profit + (1000 + envGain.premiumOf 1000) ∧
      balanceOf sPostGain envGain.self evGain.loanAsset = evGain.profit) :=
  ⟨rfl, rfl, rfl, rfl,
   startArbitrage_success_accounting envGain stReg 5 pathABA 1000 sPostGain evGain rfl⟩

/-- C3 counterexample: two identical `addArbitragePath` calls yield the same
key, yet the path count rises from `0` to `2` — refuting "increases by at
most one" — because line 122 pushes the key unconditionally. -/
theorem addArbitragePath_duplicate_push_counterexample :
    addArbitragePath baseState 5 [10, 11] [0] = .ok (cexS1, ([10, 11], [0])) ∧
    addArbitragePath cexS1 5 [10, 11] [0] = .ok (cexS2, ([10, 11], [0])) ∧
    getArbitragePathCount baseState = 0 ∧
    getArbitragePathCount cexS2 = 2 ∧
    ¬ (getArbitragePathCount cexS2 ≤ getArbitragePathCount baseState + 1) :=
  ⟨rfl, rfl, rfl, rfl, by decide⟩

/-- C3 witness (amended claim): the same pair of identical calls, with the
count growing by exactly one per call. -/
theorem addArbitragePath_idempotent_key_count_two_witness :
    addArbitragePath baseState 5 [10, 11] [0] = .ok (cexS1, ([10, 11], [0])) ∧
    (∃ s2, addArbitragePath cexS1 5 [10, 11] [0] = .ok (s2, ([10, 11], [0])) ∧
      getArbitragePathCount cexS1 = getArbitragePathCount baseState + 1 ∧
      getArbitragePathCount s2 = getArbitragePathCount baseState + 2) :=
  ⟨rfl, addArbitragePath_idempotent_key_count_two baseState 5 [10, 11] [0]
          cexS1 ([10, 11], [0]) rfl⟩

/-- C4 witness: with a cycle in flight, the owner's re-entrant
`startArbitrage` fails with `CycleAlreadyActive` and no loan is issued. -/
theorem startArbitrage_reentrancy_rejected_witness :
    stLocked.locked = true ∧
    ((∃ e, txStartArbitrage envGain stLocked 5 pathABA 1000 = (stLocked, .error e)) ∧
     ((5 : Address) = stLocked.owner →
       txStartArbitrage envGain stLocked 5 pathABA 1000
         = (stLocked, .error .CycleAlreadyActive))) :=
  ⟨rfl, startArbitrage_reentrancy_rejected envGain stLocked 5 pathABA 1000 rfl⟩

/-- C5 witness: a callback from address `9` (not the Aave pool at `7`) is
rejected and the reverted call leaves the state untouched. -/
theorem executeOperation_foreign_caller_rejected_witness :
    ((9 : Address) ≠ stReg.aavePool ∨ (1 : Address) ≠ envGain.self) ∧
    (∃ e, (e = EngineError.UnauthorizedCallback ∨ e = EngineError.ForeignInitiator) ∧
      txExecuteOperation envGain stReg 9 10 1000 1 1 pathABA = (stReg, .error e)) :=
  ⟨Or.inl (by decide),
   executeOperation_foreign_caller_rejected envGain stReg 9 10 1000 1 1 pathABA
     (Or.inl (by decide))⟩

/-- C6 witness: the validation conjunction evaluated at the claim's concrete
inputs over a registry holding one active exchange. -/
theorem addArbitragePath_validation_witness :
    (5 : Address) = baseState.owner ∧
    ((∀ tokens hops s2 k, addArbitragePath baseState 5 tokens hops = .ok (s2, k) →
        2 ≤ tokens.length ∧ hops.length = tokens.length - 1 ∧
        ∀ i ∈ hops, ∃ r, baseState.exchangeRouters[i]? = some r ∧ r.active = true) ∧
     (∀ tokens hops e, addArbitragePath baseState 5 tokens hops = .error e →
        txAddArbitragePath baseState 5 tokens hops = (baseState, .error e)) ∧
     addArbitragePath baseState 5 [20, 21] [] = .error .HopCountMismatch ∧
     (∀ r, baseState.exchangeRouters = [r] → r.active = true →
        addArbitragePath baseState 5 [20, 21, 22] [0, 99]
          = .error .InvalidExchangeIndex)) :=
  ⟨rfl, addArbitragePath_validation baseState 5 rfl 20 21 22⟩

/-- C7 witness: the committed `10 → 11 → 10` cycle issues one swap per hop,
each with zero output floor, the engine as recipient, deadline `1300` (with
`block.timestamp = 1000`), and hop inputs `1000` then `1025` — the entire
balance held at each point. -/
theorem executeOperation_swap_chain_shape_witness :
    executeOperation envGain stLoanOnly 7 10 1000 1 1 pathABA
      = .ok (sMidGain, (callsGain, 49)) ∧
    (callsGain.length = (lookupPath stLoanOnly pathABA).exchangeIndexes.length ∧
     (∀ c ∈ callsGain, c.amountOutMin = 0 ∧ c.recipient = envGain.self ∧
       c.deadline = envGain.timestamp + 300 ∧ envGain.timestamp < c.deadline) ∧
     (∀ i, i < (lookupPath stLoanOnly pathABA).exchangeIndexes.length →
       ∃ sPre pre hop fromTok toTok r,
         runSwapChain envGain stLoanOnly (lookupPath stLoanOnly pathABA).path
             ((lookupPath stLoanOnly pathABA).exchangeIndexes.take i)
           = .ok (sPre, pre) ∧
         (lookupPath stLoanOnly pathABA).exchangeIndexes[i]? = some hop ∧
         (lookupPath stLoanOnly pathABA).path[i]? = some fromTok ∧
         (lookupPath stLoanOnly pathABA).path[i + 1]? = some toTok ∧
         stLoanOnly.exchangeRouters[hop]? = some r ∧
         callsGain[i]? = some ⟨r.routerAddress, balanceOf sPre envGain.self fromTok, 0,
                               [fromTok, toTok], envGain.self, envGain.timestamp + 300⟩)) :=
  ⟨rfl, executeOperation_swap_chain_shape envGain stLoanOnly 7 10 1000 1 1 pathABA
          sMidGain callsGain 49 rfl⟩

/-- C8 witness: deactivating the single exchange leaves every path record,
key and balance in place, while a new path through index `0` is rejected. -/
theorem updateExchange_nonretroactive_frame_witness :
    updateExchange baseState 5 0 100 "UniswapV2" false = .ok (updExchS, ()) ∧
    (updExchS.arbitragePaths = baseState.arbitragePaths ∧
     updExchS.pathKeys = baseState.pathKeys ∧
     updExchS.balances = baseState.balances ∧
     (∀ k, getArbitragePath updExchS k = getArbitragePath baseState k) ∧
     updExchS.exchangeRouters[0]? = some ⟨100, "UniswapV2", false⟩ ∧
     (∀ caller2 tokens hops, 0 ∈ hops →
       ∃ e, addArbitragePath updExchS caller2 tokens hops = .error e)) :=
  ⟨rfl, updateExchange_nonretroactive_frame baseState 5 0 100 "UniswapV2" updExchS rfl⟩

/-- C9 witness: sweeping a balance of `250` transfers all of it to the
owner, zeroes the engine's balance, and reports `FundsWithdrawn` of `250`;
the state afterwards has nothing left to withdraw. -/
theorem withdraw_full_sweep_witness :
    ((5 : Address) = stBal.owner ∧ stBal.locked = false ∧ stBal.owner ≠ envGain.self) ∧
    ((balanceOf stBal envGain.self 10 = 0 →
       txWithdraw envGain stBal 5 10 = (stBal, .error .NothingToWithdraw)) ∧
     (∀ N, balanceOf stBal envGain.self 10 = N → 0 < N →
       ∃ s2, txWithdraw envGain stBal 5 10 = (s2, .ok N) ∧
         balanceOf s2 envGain.self 10 = 0 ∧
         balanceOf s2 stBal.owner 10 = balanceOf stBal stBal.owner 10 + N ∧
         s2.arbitragePaths = stBal.arbitragePaths ∧
         s2.pathKeys = stBal.pathKeys ∧
         s2.exchangeRouters = stBal.exchangeRouters)) :=
  ⟨⟨rfl, rfl, by decide⟩, withdraw_full_sweep envGain stBal 5 10 rfl rfl (by decide)⟩

/-- C10 witness: the same losing swap chain that reverts when the engine
holds only the loan (`stLoanOnly`, settling at `600 < 1001`) commits when
`500` of pre-existing custody is present (`stPre500`, settling at `1100`),
and the reported profit `99` counts the pre-existing funds. -/
theorem executeOperation_entire_balance_accounting_witness :
    runSwapChain envLoss stPre500 (lookupPath stPre500 pathABA).path
        (lookupPath stPre500 pathABA).exchangeIndexes = .ok (sMidPre, callsPre) ∧
    executeOperation envLoss stPre500 7 10 1000 1 1 pathABA
      = .ok (sMidPre, (callsPre, 99)) ∧
    executeOperation envLoss stLoanOnly 7 10 1000 1 1 pathABA
      = .error .InsufficientProfit ∧
    ((1000 + 1 ≤ balanceOf sMidPre envLoss.self 10 →
       executeOperation envLoss stPre500 7 10 1000 1 1 pathABA
         = .ok (sMidPre, (callsPre, balanceOf sMidPre envLoss.self 10 - (1000 + 1)))) ∧
     (balanceOf sMidPre envLoss.self 10 < 1000 + 1 →
       executeOperation envLoss stPre500 7 10 1000 1 1 pathABA
         = .error .InsufficientProfit)) :=
  ⟨rfl, rfl, rfl,
   executeOperation_entire_balance_accounting envLoss stPre500 7 10 1000 1 1 pathABA
     sMidPre callsPre rfl rfl rfl⟩

end ArbEngine
